import Mathlib

/-!
Verification of the Universal-Market-Cycles cycle-detection and CAR engine.

This file gives a shallow embedding of the core of the repository:

* `CAR.py` — the Coverage Acceptance Ratio engine (`calculate_car`): delta
  coercion, row filtering, tolerance-interval merging and the derived
  null-hypothesis probabilities;
* `compute_match_psd.py` — the PSD threshold-mass peak-selection step
  (`find_dominant_cycles`), nearest-cycle matching (`find_closest_cycle`)
  and the per-instrument validation in the main loop;
* `compute_match_pacf.py` — the PACF significant-lag selection step and its
  per-instrument validation.

Machine floats are embedded as `ℚ`, prices as `Int`; external library calls
(`scipy.stats.binomtest`, `np.sqrt`) that return opaque numerical values are
passed in as explicit function parameters, while their deterministic,
documented raising behaviour (scipy's argument validation, statsmodels'
`pacf` lag-count validation) is embedded explicitly, with `Option` results
or error statuses modelling an escaping `ValueError`.
-/

namespace UMC

/-- Processing status of one instrument in a batch (the `status` variable of
the per-instrument loops; the error message strings are dropped). -/
inductive Status where
  | success
  | error
deriving DecidableEq, Repr

/-- Whether a status is an error. -/
def Status.isError : Status → Bool
  | .success => false
  | .error => true

/-- A raw CSV cell of a delta column, before `pd.to_numeric`: a numeric
value, a missing value, or a non-numeric entry. -/
inductive Cell where
  | num (q : ℚ)
  | null
  | junk
deriving DecidableEq, Repr

/-- `pd.to_numeric(col, errors='coerce')` — CAR.py line 37: numeric cells
keep their value, missing and non-numeric cells become NaN (`none`). -/
def Cell.toNumeric : Cell → Option ℚ
  | .num q => some q
  | .null => none
  | .junk => none

/-- One row of the results table, restricted to the two columns that
`calculate_car` reads (CAR.py line 36). -/
structure Row where
  cycle1_delta : Cell
  cycle2_delta : Cell
deriving DecidableEq, Repr

namespace CAR

/-- CAR.py lines 8-15: the 47-entry universal cycle table. -/
def TABLE_CYCLES : List Int :=
  [179, 183, 189, 196, 202, 206, 220, 237,
   243, 250, 260, 268, 273, 291, 308, 314,
   322, 331, 345, 355, 362, 368, 385, 403,
   408, 416, 426, 439, 457, 470, 480, 487,
   493, 510, 528, 534, 541, 551, 564, 582,
   605, 622, 636, 645, 653, 659, 676]

/-- CAR.py line 16. -/
def MIN_PERIOD : Int := 175

/-- CAR.py line 17. -/
def MAX_PERIOD : Int := 680

/-- CAR.py line 41 predicate: a row survives
`dropna(subset=['Cycle1_Delta','Cycle2_Delta'], how='all')` iff at least one
coerced delta is non-null. -/
def hasCycle (r : Row) : Bool :=
  r.cycle1_delta.toNumeric.isSome || r.cycle2_delta.toNumeric.isSome

/-- CAR.py lines 45-50: the `Covered` flag of one (kept) row.  In pandas a
comparison with NaN is `False`, so the `Cycle1_Delta <= tolerance` term is
false when the first delta is null, and the second term carries an explicit
`pd.notna` guard. -/
def coveredRow (tolerance : Int) (r : Row) : Bool :=
  (match r.cycle1_delta.toNumeric with
   | some d => decide (d ≤ (tolerance : ℚ))
   | none => false) ||
  (match r.cycle2_delta.toNumeric with
   | some d => decide (d ≤ (tolerance : ℚ))
   | none => false)

/-- The best delta of a row in the sense of spec section 4.5 step 2: the
minimum of the two coerced deltas, a null delta counting as plus infinity.
This is the specification-side notion that the code's `Covered` flag is
checked against. -/
def bestDelta (r : Row) : WithTop ℚ :=
  min
    (match r.cycle1_delta.toNumeric with
     | some d => (d : WithTop ℚ)
     | none => ⊤)
    (match r.cycle2_delta.toNumeric with
     | some d => (d : WithTop ℚ)
     | none => ⊤)

/-- CAR.py lines 58-62: the clipped tolerance interval of each table entry. -/
def tolIntervals (table : List Int) (tolerance : Int) : List (Int × Int) :=
  table.map (fun c => (max MIN_PERIOD (c - tolerance), min MAX_PERIOD (c + tolerance)))

/-- The order used by Python's `intervals.sort()` on pairs: lexicographic. -/
def pairLe (a b : Int × Int) : Prop :=
  a.1 < b.1 ∨ (a.1 = b.1 ∧ a.2 ≤ b.2)

instance : DecidableRel pairLe := fun a b => by
  unfold pairLe
  infer_instance

instance : IsTotal (Int × Int) pairLe where
  total a b := by
    rcases lt_trichotomy a.1 b.1 with h | h | h
    · exact Or.inl (Or.inl h)
    · rcases le_total a.2 b.2 with h2 | h2
      · exact Or.inl (Or.inr ⟨h, h2⟩)
      · exact Or.inr (Or.inr ⟨h.symm, h2⟩)
    · exact Or.inr (Or.inl h)

instance : IsTrans (Int × Int) pairLe where
  trans a b c hab hbc := by
    rcases hab with h1 | ⟨h1, h1'⟩ <;> rcases hbc with h2 | ⟨h2, h2'⟩
    · exact Or.inl (h1.trans h2)
    · exact Or.inl (h2 ▸ h1)
    · exact Or.inl (h1 ▸ h2)
    · exact Or.inr ⟨h1.trans h2, h1'.trans h2'⟩

instance : IsAntisymm (Int × Int) pairLe where
  antisymm a b hab hba := by
    rcases hab with h1 | ⟨h1, h1'⟩ <;> rcases hba with h2 | ⟨h2, h2'⟩
    · exact absurd (h1.trans h2) (lt_irrefl _)
    · exact absurd h1 (h2 ▸ lt_irrefl _)
    · exact absurd h2 (h1 ▸ lt_irrefl _)
    · exact Prod.ext h1 (le_antisymm h1' h2')

/-- Python's `intervals.sort()` (CAR.py line 65): sort lexicographically. -/
def sortIntervals (l : List (Int × Int)) : List (Int × Int) :=
  l.insertionSort pairLe

/-- CAR.py lines 68-75, the body of the merge loop: `(st, en)` is the running
interval; an incoming interval overlapping or adjacent (`s ≤ en + 1`) extends
it, otherwise the running interval is emitted and restarted. -/
def mergeLoop (st en : Int) : List (Int × Int) → List (Int × Int)
  | [] => [(st, en)]
  | (s, e) :: rest =>
    if s ≤ en + 1 then mergeLoop st (max en e) rest
    else (st, en) :: mergeLoop s e rest

/-- CAR.py lines 66-75: merge a (sorted) interval list; empty input gives an
empty merged list. -/
def mergeIntervals : List (Int × Int) → List (Int × Int)
  | [] => []
  | (s, e) :: rest => mergeLoop s e rest

/-- The merged tolerance intervals of a table (CAR.py lines 58-75). -/
def mergedIntervals (table : List Int) (tolerance : Int) : List (Int × Int) :=
  mergeIntervals (sortIntervals (tolIntervals table tolerance))

/-- CAR.py line 78: `sum(e - s + 1 for s, e in merged)`. -/
def totalCoveredDays (table : List Int) (tolerance : Int) : Int :=
  ((mergedIntervals table tolerance).map (fun p => p.2 - p.1 + 1)).sum

/-- CAR.py line 79: `MAX_PERIOD - MIN_PERIOD + 1` (506). -/
def coverageRange : Int := MAX_PERIOD - MIN_PERIOD + 1

/-- CAR.py line 82: `p_single_match = total_covered_days / coverage_range`. -/
def pSingleMatch (table : List Int) (tolerance : Int) : ℚ :=
  (totalCoveredDays table tolerance : ℚ) / (coverageRange : ℚ)

/-- CAR.py line 83: `p_at_least_one = min(1.0, 1 - (1 - p_single_match)**2)`. -/
def pAtLeastOne (table : List Int) (tolerance : Int) : ℚ :=
  min 1 (1 - (1 - pSingleMatch table tolerance) ^ 2)

/-- The analysis method argument of `calculate_car` (the argparse choices of
CAR.py line 131). -/
inductive Method where
  | psd
  | dft
  | pacf
  | wavelet
deriving DecidableEq, Repr

/-- The record returned by `calculate_car` (CAR.py lines 96-107). -/
structure CoverageSummary where
  method : Method
  car : ℚ
  covered : Nat
  processed : Nat
  p_value : ℚ
  z_score : ℚ
  excess_coverage : ℚ
  expected_random : ℚ
  p_random_per_cycle : ℚ
  p_at_least_one_match : ℚ
deriving Repr

/-- CAR.py lines 25-107, `calculate_car`.  The two external numerical library
calls are passed in as total functions: `binomtest k n p` stands for
`scipy.stats.binomtest(k, n, p, alternative='greater').pvalue` and `sqrtF`
for `np.sqrt`.  The guarded divisions of lines 55 and 94 are embedded with
their guards. -/
def calculate_car (binomtest : Nat → Nat → ℚ → ℚ) (sqrtF : ℚ → ℚ)
    (results_df : List Row) (method : Method) (tolerance : Int) : CoverageSummary :=
  let kept := results_df.filter hasCycle
  let covered := (kept.filter (coveredRow tolerance)).length
  let processed_count := kept.length
  let car : ℚ := if 0 < processed_count then (covered : ℚ) / (processed_count : ℚ) else 0
  let p_single_match := pSingleMatch TABLE_CYCLES tolerance
  let p_at_least_one := pAtLeastOne TABLE_CYCLES tolerance
  let expected_random : ℚ := (processed_count : ℚ) * p_at_least_one
  let excess_coverage := car - p_at_least_one
  let std_dev := sqrtF ((processed_count : ℚ) * p_at_least_one * (1 - p_at_least_one))
  let z_score : ℚ := if 0 < std_dev then ((covered : ℚ) - expected_random) / std_dev else 0
  { method := method
    car := car
    covered := covered
    processed := processed_count
    p_value := binomtest covered processed_count p_at_least_one
    z_score := z_score
    excess_coverage := excess_coverage
    expected_random := expected_random
    p_random_per_cycle := p_single_match
    p_at_least_one_match := p_at_least_one }

/-- The `calculate_car` call as actually executed.  `scipy.stats.binomtest`
validates its arguments before computing anything: `n` must be at least 1,
`k` must satisfy `0 ≤ k ≤ n`, and `p` must lie in `[0, 1]`; a violation
raises `ValueError`.  CAR.py line 86 passes `covered`, `processed_count` and
`p_at_least_one`, so with `processed_count = 0` the call raises and
`calculate_car` aborts before the `z_score` of line 94 is ever computed.
`none` models the `ValueError` escaping the call; otherwise the completed
summary is returned. -/
def calculate_car_call (binomtest : Nat → Nat → ℚ → ℚ) (sqrtF : ℚ → ℚ)
    (results_df : List Row) (method : Method) (tolerance : Int) :
    Option CoverageSummary :=
  if 1 ≤ (calculate_car binomtest sqrtF results_df method tolerance).processed ∧
      (calculate_car binomtest sqrtF results_df method tolerance).covered ≤
        (calculate_car binomtest sqrtF results_df method tolerance).processed ∧
      0 ≤ (calculate_car binomtest sqrtF results_df method tolerance).p_at_least_one_match ∧
      (calculate_car binomtest sqrtF results_df method tolerance).p_at_least_one_match ≤ 1 then
    some (calculate_car binomtest sqrtF results_df method tolerance)
  else none

end CAR

/-- Python's built-in `round` on a rational value: round half to even. -/
def pyRound (q : ℚ) : Int :=
  let f := ⌊q⌋
  let r := q - (f : ℚ)
  if r < 1 / 2 then f
  else if 1 / 2 < r then f + 1
  else if f % 2 = 0 then f else f + 1

/-- Python's `min(table, key=...)` on an integer list: linear scan keeping the
first element whose key is strictly smaller than the current best, so the
lowest-index minimiser wins. -/
def pyMinBy (key : Int → Int) : List Int → Option Int
  | [] => none
  | x :: xs => some (xs.foldl (fun best y => if key y < key best then y else best) x)

/-- Descending order on the second (strength) component, used to embed the
descending sorts of both extractors.  `insertionSort` with this non-strict
relation is stable, matching Python's stable sorts. -/
def descBySnd {α : Type} : α × ℚ → α × ℚ → Prop :=
  fun a b => b.2 ≤ a.2

instance {α : Type} : DecidableRel (descBySnd (α := α)) := fun a b => by
  unfold descBySnd
  infer_instance

instance {α : Type} : IsTotal (α × ℚ) descBySnd where
  total a b := le_total b.2 a.2

instance {α : Type} : IsTrans (α × ℚ) descBySnd where
  trans _ _ _ hab hbc := le_trans hbc hab

namespace PSD

/-- compute_match_psd.py lines 55-63: the 53-entry unified cycle table of the
PSD matcher. -/
def TABLE_CYCLES : List Int :=
  [179, 183, 189, 196, 202, 206, 220, 237,
   243, 250, 260, 268, 273, 291, 308, 314,
   322, 331, 345, 355, 362, 368, 385, 403,
   408, 416, 426, 439, 457, 470, 480, 487,
   493, 510, 528, 534, 541, 551, 564, 582,
   605, 622, 636, 645, 653, 659, 676, 694,
   699, 707, 717, 730, 747]

/-- compute_match_psd.py lines 116-127 (verbatim also compute_match_pacf.py
lines 9-20), `find_closest_cycle`.  A `none` period models a `None`, empty or
non-numeric raw period, all of which return `(None, None)`; `min` over the
empty table raises `ValueError`, which the `except` clause also turns into
`(None, None)`. -/
def find_closest_cycle (period : Option Int) (cycle_table : List Int) :
    Option Int × Option Int :=
  match period with
  | none => (none, none)
  | some p =>
    match pyMinBy (fun x => |x - p|) cycle_table with
    | none => (none, none)
    | some closest => (some closest, some |p - closest|)

/-- The descending sort by power of compute_match_psd.py line 162
(`sort_values('power', ascending=False)`). -/
def sortPeaks (peaks : List (ℚ × ℚ)) : List (ℚ × ℚ) :=
  peaks.insertionSort descBySnd

/-- compute_match_psd.py lines 153-195: the part of `find_dominant_cycles`
from the detected `(period, power)` peaks onwards.  Empty peak list: line
153's early return.  The top 10 by power are taken, the total power computed,
and the threshold-mass selection of lines 177-195 applied; the final
`[:2]` slice is the identity, and periods are rounded with Python `round`. -/
def find_dominant_cycles (peaks : List (ℚ × ℚ)) (threshold : ℚ) : List Int :=
  match peaks with
  | [] => []
  | _ :: _ =>
    let top_10_cycles := (sortPeaks peaks).take 10
    let total_power := (top_10_cycles.map Prod.snd).sum
    if total_power = 0 then []
    else
      match top_10_cycles with
      | p0 :: p1 :: _ =>
        if threshold * total_power ≤ p0.2 + p1.2 then [pyRound p0.1, pyRound p1.1]
        else []
      | [p0] =>
        if threshold * total_power ≤ p0.2 then [pyRound p0.1]
        else []
      | [] => []

/-- compute_match_psd.py lines 225-241, the per-instrument validation of the
main loop: a missing data file raises `FileNotFoundError`, fewer than 1000
rows raises `ValueError`, and any non-positive close raises `ValueError`;
every exception is caught at line 261 and recorded as an ERROR status while
the loop moves on to the next instrument. -/
def psdStatus (file : Option (List Int)) : Status :=
  match file with
  | none => .error
  | some closes =>
    if closes.length < 1000 then .error
    else if closes.any (fun c => decide (c ≤ 0)) then .error
    else .success

end PSD

namespace PACF

/-- compute_match_pacf.py line 35. -/
def MIN_LAG : Nat := 179

/-- compute_match_pacf.py line 36. -/
def MAX_LAG : Nat := 676

/-- compute_match_pacf.py line 92. -/
def MIN_CYCLE_DISTANCE : Nat := 71

/-- compute_match_pacf.py lines 161-168: collect every lag in
`[MIN_LAG, min(MAX_LAG, len(pacf_vals)-1)]` whose PACF value is finite
(`none` models a non-finite value) and exceeds the confidence threshold in
magnitude, paired with that magnitude. -/
def significantLags (pacf_vals : List (Option ℚ)) (ci_threshold : ℚ) :
    List (Nat × ℚ) :=
  (List.range' MIN_LAG (min (MAX_LAG + 1) pacf_vals.length - MIN_LAG)).filterMap
    (fun lag =>
      match pacf_vals.getD lag none with
      | none => none
      | some v => if ci_threshold < |v| then some (lag, |v|) else none)

/-- compute_match_pacf.py line 171: stable descending sort by significance. -/
def sortSig (l : List (Nat × ℚ)) : List (Nat × ℚ) :=
  l.insertionSort descBySnd

/-- The absolute distance between two lags, `abs(lag - existing_lag)`. -/
def lagDist (a b : Nat) : Nat :=
  ((a : Int) - (b : Int)).natAbs

/-- compute_match_pacf.py lines 180-184, the scan for further separated lags:
walk the remaining sorted lags, append the first one at distance at least
`MIN_CYCLE_DISTANCE` from every already-accepted lag, and stop once two lags
are accepted. -/
def pickSeparated (existing : List Nat) : List (Nat × ℚ) → List Nat
  | [] => existing
  | (lag, _) :: rest =>
    if existing.all (fun e => decide (MIN_CYCLE_DISTANCE ≤ lagDist lag e)) then
      if 2 ≤ (existing ++ [lag]).length then existing ++ [lag]
      else pickSeparated (existing ++ [lag]) rest
    else pickSeparated existing rest

/-- compute_match_pacf.py lines 173-188: the top-two lag selection.  The
strongest significant lag is always taken; the remainder is scanned for a
separated second lag; if none is found but a second significant lag exists,
the unconditional second-strongest is taken as fallback. -/
def topLags (significant_lags : List (Nat × ℚ)) : List Nat :=
  match sortSig significant_lags with
  | [] => []
  | s0 :: rest =>
    let tl := pickSeparated [s0.1] rest
    if tl.length = 1 then
      match rest with
      | [] => tl
      | s1 :: _ => tl ++ [s1.1]
    else tl

/-- compute_match_pacf.py lines 128-156, the per-instrument outcome of the
main loop: a missing data file raises `FileNotFoundError`; fewer than 1000
rows raises `ValueError`; non-positive closes are FILTERED OUT (lines
144-146) and a `ValueError` is raised only if fewer than 1000 positive closes
remain.  Line 156 then calls statsmodels `pacf(diff_series, nlags=MAX_LAG,
method='ols')` on the `n - 1` first differences of the `n` positive closes,
and statsmodels validates the lag count before computing anything, raising
`ValueError` whenever `nlags >= nobs // 2` — so the call itself errors for
any series with fewer than 1355 positive closes.  The remainder of the try
block (threshold, lag scan, matching) raises nothing.  Every exception is
caught at line 203 and recorded as an ERROR status while the loop
continues. -/
def pacfStatus (file : Option (List Int)) : Status :=
  match file with
  | none => .error
  | some closes =>
    if closes.length < 1000 then .error
    else if (closes.filter (fun c => decide (0 < c))).length < 1000 then .error
    else if ((closes.filter (fun c => decide (0 < c))).length - 1) / 2 ≤ MAX_LAG then .error
    else .success

end PACF

/-! ## Supporting lemmas -/

theorem length_filter_add_length_filter_not {α : Type} (p : α → Bool) (l : List α) :
    (l.filter p).length + (l.filter (fun a => !(p a))).length = l.length := by
  induction l with
  | nil => rfl
  | cons x xs ih =>
    by_cases h : p x = true <;>
      simp [List.filter_cons, h, ← ih] <;> omega

theorem filter_pos_replicate_one (n : Nat) :
    (List.replicate n (1 : Int)).filter (fun c => decide (0 < c)) = List.replicate n 1 := by
  induction n with
  | zero => rfl
  | succ k ih => simp [List.replicate_succ, List.filter_cons, ih]

theorem psdStatus_some (closes : List Int) :
    PSD.psdStatus (some closes) =
      if closes.length < 1000 then Status.error
      else if closes.any (fun c => decide (c ≤ 0)) then Status.error
      else Status.success := rfl

theorem pacfStatus_some (closes : List Int) :
    PACF.pacfStatus (some closes) =
      if closes.length < 1000 then Status.error
      else if (closes.filter (fun c => decide (0 < c))).length < 1000 then Status.error
      else if ((closes.filter (fun c => decide (0 < c))).length - 1) / 2 ≤ PACF.MAX_LAG then
        Status.error
      else Status.success := rfl

theorem coveredRow_iff_bestDelta {t : Int} {r : Row} :
    CAR.coveredRow t r = true ↔ CAR.bestDelta r ≤ ((t : ℚ) : WithTop ℚ) := by
  unfold CAR.coveredRow CAR.bestDelta
  cases h1 : r.cycle1_delta.toNumeric <;> cases h2 : r.cycle2_delta.toNumeric <;>
    simp [min_le_iff, WithTop.coe_le_coe]

theorem bestDelta_le_hasCycle {t : Int} {r : Row}
    (h : CAR.bestDelta r ≤ ((t : ℚ) : WithTop ℚ)) : CAR.hasCycle r = true := by
  unfold CAR.bestDelta at h
  unfold CAR.hasCycle
  cases h1 : r.cycle1_delta.toNumeric <;> cases h2 : r.cycle2_delta.toNumeric <;>
    simp_all [min_le_iff]

/-! ## Claim theorems -/

/-- C9: with reference table `[200, 300]` and tolerance 2 the merge step of
`calculate_car` produces exactly the intervals `[198,202]` and `[298,302]`,
`covered_days = 10`, `p_single_match = 10/506` (which is ≈ 0.01976) and
`p_at_least_one = 1 − (1 − 10/506)^2` (which is ≈ 0.0392), with
`MIN_PERIOD = 175` and `MAX_PERIOD = 680`. -/
theorem c9_merge_example :
    CAR.MIN_PERIOD = 175 ∧ CAR.MAX_PERIOD = 680 ∧
    CAR.mergedIntervals [200, 300] 2 = [(198, 202), (298, 302)] ∧
    CAR.totalCoveredDays [200, 300] 2 = 10 ∧
    CAR.pSingleMatch [200, 300] 2 = 10 / 506 ∧
    CAR.pAtLeastOne [200, 300] 2 = 1 - (1 - 10 / 506) ^ 2 := by
  have h : CAR.totalCoveredDays [200, 300] 2 = 10 := by decide
  refine ⟨rfl, rfl, by decide, h, ?_, ?_⟩
  · rw [CAR.pSingleMatch, h]
    norm_num [CAR.coverageRange, CAR.MIN_PERIOD, CAR.MAX_PERIOD]
  · rw [CAR.pAtLeastOne, CAR.pSingleMatch, h]
    norm_num [CAR.coverageRange, CAR.MIN_PERIOD, CAR.MAX_PERIOD]

/-- C7: on the fixed reference table of CAR.py, increasing the tolerance from
1 to 2 to 3 never decreases the merged-interval union size
(`total_covered_days`: 141, 233, 311) nor the `p_at_least_one_match` computed
by `calculate_car` on any batch and method. -/
theorem c7_tolerance_monotone :
    CAR.totalCoveredDays CAR.TABLE_CYCLES 1 ≤ CAR.totalCoveredDays CAR.TABLE_CYCLES 2 ∧
    CAR.totalCoveredDays CAR.TABLE_CYCLES 2 ≤ CAR.totalCoveredDays CAR.TABLE_CYCLES 3 ∧
    ∀ (bt : Nat → Nat → ℚ → ℚ) (sq : ℚ → ℚ) (df : List Row) (m : CAR.Method),
      (CAR.calculate_car bt sq df m 1).p_at_least_one_match ≤
        (CAR.calculate_car bt sq df m 2).p_at_least_one_match ∧
      (CAR.calculate_car bt sq df m 2).p_at_least_one_match ≤
        (CAR.calculate_car bt sq df m 3).p_at_least_one_match := by
  have h1 : CAR.totalCoveredDays CAR.TABLE_CYCLES 1 = 141 := by decide
  have h2 : CAR.totalCoveredDays CAR.TABLE_CYCLES 2 = 233 := by decide
  have h3 : CAR.totalCoveredDays CAR.TABLE_CYCLES 3 = 311 := by decide
  have hp : CAR.pAtLeastOne CAR.TABLE_CYCLES 1 ≤ CAR.pAtLeastOne CAR.TABLE_CYCLES 2 ∧
      CAR.pAtLeastOne CAR.TABLE_CYCLES 2 ≤ CAR.pAtLeastOne CAR.TABLE_CYCLES 3 := by
    rw [CAR.pAtLeastOne, CAR.pAtLeastOne, CAR.pAtLeastOne,
      CAR.pSingleMatch, CAR.pSingleMatch, CAR.pSingleMatch, h1, h2, h3]
    norm_num [CAR.coverageRange, CAR.MIN_PERIOD, CAR.MAX_PERIOD]
  exact ⟨by omega, by omega, fun bt sq df m => hp⟩

/-- C10: for every batch, every method and every binomtest/sqrt oracle,
`calculate_car` derives `p_random_per_cycle` (= `p_single_match`) and
`p_at_least_one_match` exclusively from the hard-coded 47-entry
`TABLE_CYCLES` of CAR.py with `MIN_PERIOD = 175`, `MAX_PERIOD = 680` — they
are a function of the tolerance alone, identical across methods and batches;
the 53-entry PSD table is a different table and would give a different
covered-days value. -/
theorem c10_car_table_only :
    (∀ (bt₁ bt₂ : Nat → Nat → ℚ → ℚ) (sq₁ sq₂ : ℚ → ℚ) (df₁ df₂ : List Row)
        (m₁ m₂ : CAR.Method) (t : Int),
      (CAR.calculate_car bt₁ sq₁ df₁ m₁ t).p_random_per_cycle =
        (CAR.calculate_car bt₂ sq₂ df₂ m₂ t).p_random_per_cycle ∧
      (CAR.calculate_car bt₁ sq₁ df₁ m₁ t).p_at_least_one_match =
        (CAR.calculate_car bt₂ sq₂ df₂ m₂ t).p_at_least_one_match) ∧
    (∀ (bt : Nat → Nat → ℚ → ℚ) (sq : ℚ → ℚ) (df : List Row) (m : CAR.Method) (t : Int),
      (CAR.calculate_car bt sq df m t).p_random_per_cycle =
        (CAR.totalCoveredDays CAR.TABLE_CYCLES t : ℚ) /
          ((CAR.MAX_PERIOD - CAR.MIN_PERIOD + 1 : Int) : ℚ) ∧
      (CAR.calculate_car bt sq df m t).p_at_least_one_match =
        min 1 (1 - (1 - CAR.pSingleMatch CAR.TABLE_CYCLES t) ^ 2)) ∧
    CAR.TABLE_CYCLES.length = 47 ∧ PSD.TABLE_CYCLES.length = 53 ∧
    CAR.MIN_PERIOD = 175 ∧ CAR.MAX_PERIOD = 680 ∧
    CAR.totalCoveredDays PSD.TABLE_CYCLES 2 ≠ CAR.totalCoveredDays CAR.TABLE_CYCLES 2 := by
  refine ⟨fun bt₁ bt₂ sq₁ sq₂ df₁ df₂ m₁ m₂ t => ⟨rfl, rfl⟩,
    fun bt sq df m t => ⟨rfl, rfl⟩, by decide, by decide, rfl, rfl, by decide⟩

/-- C5 counterexample: at a concrete one-row batch whose deltas are a
missing value and a non-numeric value (`processed_count = 0`), the
`calculate_car` call does NOT complete with a `CoverageSummary`:
`scipy.stats.binomtest(0, 0, p)` at CAR.py line 86 raises `ValueError`
(`n` must be at least 1) before the `z_score` of line 94 is reached, and the
`ValueError` escapes the call. -/
theorem c5_zero_processed_counterexample :
    (∀ r ∈ [Row.mk Cell.null Cell.junk],
      r.cycle1_delta.toNumeric = none ∧ r.cycle2_delta.toNumeric = none) ∧
    CAR.calculate_car_call (fun _ _ _ => 0) id [Row.mk Cell.null Cell.junk]
      CAR.Method.psd 2 = none := by
  constructor
  · intro r hr
    rw [List.mem_singleton] at hr
    subst hr
    exact ⟨rfl, rfl⟩
  · have hp : (CAR.calculate_car (fun _ _ _ => (0 : ℚ)) id [Row.mk Cell.null Cell.junk]
        CAR.Method.psd 2).processed = 0 := rfl
    unfold CAR.calculate_car_call
    exact if_neg (by rintro ⟨h1, -⟩; rw [hp] at h1; omega)

/-- C5 (amended): when every row of the batch has both deltas null or
non-numeric (`processed_count = 0`), the divisions of CAR.py are guarded:
`car` is computed as `0.0` at line 55 without a division error, and the
guarded `z_score` expression of lines 93-94 evaluates to 0 (assuming only
`np.sqrt 0 = 0` of the external sqrt).  The call however does not complete:
`scipy.stats.binomtest` at line 86 validates `n ≥ 1` and raises
`ValueError`, so no `CoverageSummary` is returned and line 94 is never
reached.  With at least one processed row and one of the code's tolerances
1, 2, 3, the call does complete and return the summary. -/
theorem c5_zero_processed (bt : Nat → Nat → ℚ → ℚ) (sq : ℚ → ℚ) (df : List Row)
    (m : CAR.Method) (t : Int)
    (h0 : ∀ r ∈ df, r.cycle1_delta.toNumeric = none ∧ r.cycle2_delta.toNumeric = none)
    (hsq : sq 0 = 0) :
    (CAR.calculate_car bt sq df m t).processed = 0 ∧
    (CAR.calculate_car bt sq df m t).car = 0 ∧
    (CAR.calculate_car bt sq df m t).z_score = 0 ∧
    CAR.calculate_car_call bt sq df m t = none ∧
    (∀ (df' : List Row) (t' : Int), t' = 1 ∨ t' = 2 ∨ t' = 3 →
      0 < (df'.filter CAR.hasCycle).length →
      CAR.calculate_car_call bt sq df' m t' =
        some (CAR.calculate_car bt sq df' m t')) := by
  have hkept : df.filter CAR.hasCycle = [] := by
    rw [List.filter_eq_nil_iff]
    intro r hr
    have := h0 r hr
    simp [CAR.hasCycle, this.1, this.2]
  have hp : (CAR.calculate_car bt sq df m t).processed = 0 := by
    show (df.filter CAR.hasCycle).length = 0
    rw [hkept]
    rfl
  refine ⟨hp, ?_, ?_, ?_, ?_⟩
  · simp [CAR.calculate_car, hkept]
  · simp [CAR.calculate_car, hkept, hsq]
  · unfold CAR.calculate_car_call
    exact if_neg (by rintro ⟨h1, -⟩; rw [hp] at h1; omega)
  · intro df' t' ht' hpos
    unfold CAR.calculate_car_call
    refine if_pos ⟨?_, ?_, ?_, ?_⟩
    · show 1 ≤ (df'.filter CAR.hasCycle).length
      omega
    · show ((df'.filter CAR.hasCycle).filter (CAR.coveredRow t')).length ≤
        (df'.filter CAR.hasCycle).length
      exact List.length_filter_le _ _
    · show (0 : ℚ) ≤ CAR.pAtLeastOne CAR.TABLE_CYCLES t'
      have h1 : CAR.totalCoveredDays CAR.TABLE_CYCLES 1 = 141 := by decide
      have h2 : CAR.totalCoveredDays CAR.TABLE_CYCLES 2 = 233 := by decide
      have h3 : CAR.totalCoveredDays CAR.TABLE_CYCLES 3 = 311 := by decide
      rcases ht' with h | h | h <;> subst h
      · rw [CAR.pAtLeastOne, CAR.pSingleMatch, h1]
        norm_num [CAR.coverageRange, CAR.MIN_PERIOD, CAR.MAX_PERIOD]
      · rw [CAR.pAtLeastOne, CAR.pSingleMatch, h2]
        norm_num [CAR.coverageRange, CAR.MIN_PERIOD, CAR.MAX_PERIOD]
      · rw [CAR.pAtLeastOne, CAR.pSingleMatch, h3]
        norm_num [CAR.coverageRange, CAR.MIN_PERIOD, CAR.MAX_PERIOD]
    · show CAR.pAtLeastOne CAR.TABLE_CYCLES t' ≤ 1
      exact min_le_left _ _

/-- Witness for `c5_zero_processed` at a concrete one-row batch whose deltas
are a missing value and a non-numeric value. -/
theorem c5_zero_processed_witness :
    (CAR.calculate_car (fun _ _ _ => 0) id [Row.mk Cell.null Cell.junk]
      CAR.Method.psd 2).processed = 0 ∧
    (CAR.calculate_car (fun _ _ _ => 0) id [Row.mk Cell.null Cell.junk]
      CAR.Method.psd 2).car = 0 ∧
    (CAR.calculate_car (fun _ _ _ => 0) id [Row.mk Cell.null Cell.junk]
      CAR.Method.psd 2).z_score = 0 ∧
    CAR.calculate_car_call (fun _ _ _ => 0) id [Row.mk Cell.null Cell.junk]
      CAR.Method.psd 2 = none ∧
    (∀ (df' : List Row) (t' : Int), t' = 1 ∨ t' = 2 ∨ t' = 3 →
      0 < (df'.filter CAR.hasCycle).length →
      CAR.calculate_car_call (fun _ _ _ => 0) id df' CAR.Method.psd t' =
        some (CAR.calculate_car (fun _ _ _ => 0) id df' CAR.Method.psd t')) :=
  c5_zero_processed (fun _ _ _ => 0) id [Row.mk Cell.null Cell.junk] CAR.Method.psd 2
    (by intro r hr; rw [List.mem_singleton] at hr; subst hr; exact ⟨rfl, rfl⟩) rfl

/-- C2: for every batch, `calculate_car` sets `processed` to the number of
rows with at least one non-null numeric delta (rows with both deltas null or
non-numeric are excluded from the denominator), `covered` to the number of
rows whose best delta (minimum of the two, null as plus infinity) is at most
the tolerance, and `car = covered / processed` (in `ℚ`, where the guarded
`processed = 0` case coincides with `0 / 0 = 0`). -/
theorem c2_calculate_car_counts (bt : Nat → Nat → ℚ → ℚ) (sq : ℚ → ℚ)
    (df : List Row) (m : CAR.Method) (t : Int) :
    (CAR.calculate_car bt sq df m t).processed =
      df.length - (df.filter (fun r =>
        decide (r.cycle1_delta.toNumeric = none ∧ r.cycle2_delta.toNumeric = none))).length ∧
    (CAR.calculate_car bt sq df m t).covered =
      (df.filter (fun r => decide (CAR.bestDelta r ≤ ((t : ℚ) : WithTop ℚ)))).length ∧
    (CAR.calculate_car bt sq df m t).car =
      ((CAR.calculate_car bt sq df m t).covered : ℚ) /
        ((CAR.calculate_car bt sq df m t).processed : ℚ) := by
  refine ⟨?_, ?_, ?_⟩
  · show (df.filter CAR.hasCycle).length = _
    have hnot : ∀ r : Row, (!(CAR.hasCycle r)) =
        decide (r.cycle1_delta.toNumeric = none ∧ r.cycle2_delta.toNumeric = none) := by
      intro r
      unfold CAR.hasCycle
      cases h1 : r.cycle1_delta.toNumeric <;> cases h2 : r.cycle2_delta.toNumeric <;> simp
    have := length_filter_add_length_filter_not CAR.hasCycle df
    simp only [funext hnot] at this
    omega
  · show ((df.filter CAR.hasCycle).filter (CAR.coveredRow t)).length = _
    rw [List.filter_filter]
    congr 1
    apply List.filter_congr
    intro r _
    by_cases h : CAR.bestDelta r ≤ ((t : ℚ) : WithTop ℚ)
    · simp [h, coveredRow_iff_bestDelta.mpr h, bestDelta_le_hasCycle h]
    · have : CAR.coveredRow t r ≠ true := fun hc => h (coveredRow_iff_bestDelta.mp hc)
      simp [h, this]
  · show (if 0 < (df.filter CAR.hasCycle).length then _ else (0 : ℚ)) = _
    by_cases h : 0 < (df.filter CAR.hasCycle).length
    · rw [if_pos h]
      rfl
    · rw [if_neg h]
      have h0 : (df.filter CAR.hasCycle).length = 0 := by omega
      show (0 : ℚ) = ((df.filter CAR.hasCycle).filter (CAR.coveredRow t)).length /
        ((df.filter CAR.hasCycle).length : ℚ)
      rw [h0]
      norm_num

/-- C4 counterexample: a price series of 1355 positive closes followed by one
zero close contains a non-positive close, yet the PACF variant does not
record an Error for it — `pacfStatus` is `success`: compute_match_pacf.py
lines 144-149 silently filter out the non-positive close, 1355 positive
closes remain, and the statsmodels lag validation passes (1354 first
differences, `676 < 1354 // 2 = 677`), so the instrument is processed as
SUCCESS. -/
theorem c4_invalid_prices_counterexample :
    (∃ c ∈ List.replicate 1355 (1 : Int) ++ [0], c ≤ 0) ∧
    PACF.pacfStatus (some (List.replicate 1355 (1 : Int) ++ [0])) = Status.success := by
  constructor
  · exact ⟨0, List.mem_append_right _ (List.mem_singleton.mpr rfl), le_refl 0⟩
  · rw [pacfStatus_some, List.filter_append, filter_pos_replicate_one]
    simp only [List.length_append, List.length_replicate, List.length_cons, List.length_nil,
      List.filter_cons, List.filter_nil]
    norm_num [PACF.MAX_LAG]

/-- C4 (amended): an instrument whose series contains non-positive closes is
recorded as an Error outcome by the PSD variant (like a missing source file,
and the batch continues, one outcome per instrument); the PACF variant
instead filters out the non-positive closes: it records an Error exactly when
the file is missing, the series is shorter than 1000 rows, fewer than 1000
positive closes remain, or the statsmodels `pacf` lag validation fails
(`MAX_LAG = 676` not below `(positives - 1) // 2`, i.e. fewer than 1355
positive closes) — and otherwise succeeds, non-positive closes
notwithstanding. -/
theorem c4_invalid_prices :
    (∀ closes : List Int, (∃ c ∈ closes, c ≤ 0) →
      (PSD.psdStatus (some closes)).isError = true) ∧
    (∀ closes : List Int, PACF.pacfStatus (some closes) = Status.success ↔
      1000 ≤ closes.length ∧
      1000 ≤ (closes.filter (fun c => decide (0 < c))).length ∧
      PACF.MAX_LAG < ((closes.filter (fun c => decide (0 < c))).length - 1) / 2) ∧
    (PSD.psdStatus none).isError = true ∧
    (PACF.pacfStatus none).isError = true ∧
    (∀ batch : List (Option (List Int)),
      (batch.map PSD.psdStatus).length = batch.length ∧
      (batch.map PACF.pacfStatus).length = batch.length) := by
  refine ⟨?_, ?_, rfl, rfl, fun batch => ⟨List.length_map _ _, List.length_map _ _⟩⟩
  · rintro closes ⟨c, hc, hc0⟩
    rw [psdStatus_some]
    by_cases hlen : closes.length < 1000
    · rw [if_pos hlen]
      rfl
    · rw [if_neg hlen, if_pos]
      · rfl
      · rw [List.any_eq_true]
        exact ⟨c, hc, by simpa using hc0⟩
  · intro closes
    rw [pacfStatus_some]
    by_cases hlen : closes.length < 1000
    · rw [if_pos hlen]
      constructor
      · intro h
        cases h
      · intro ⟨h1, _, _⟩
        omega
    · rw [if_neg hlen]
      by_cases hpos : (closes.filter (fun c => decide (0 < c))).length < 1000
      · rw [if_pos hpos]
        constructor
        · intro h
          cases h
        · intro ⟨_, h2, _⟩
          omega
      · rw [if_neg hpos]
        by_cases hlag : ((closes.filter (fun c => decide (0 < c))).length - 1) / 2 ≤
            PACF.MAX_LAG
        · rw [if_pos hlag]
          constructor
          · intro h
            cases h
          · intro ⟨_, _, h3⟩
            omega
        · rw [if_neg hlag]
          exact ⟨fun _ => ⟨by omega, by omega, by omega⟩, fun _ => rfl⟩

/-- Witness for `c4_invalid_prices`: the PSD variant errors on a concrete
series with a non-positive close, and the PACF success criterion evaluates on
the same series. -/
theorem c4_invalid_prices_witness :
    (PSD.psdStatus (some (List.replicate 1355 (1 : Int) ++ [0]))).isError = true ∧
    (PACF.pacfStatus (some (List.replicate 1355 (1 : Int) ++ [0])) = Status.success ↔
      1000 ≤ (List.replicate 1355 (1 : Int) ++ [0]).length ∧
      1000 ≤ ((List.replicate 1355 (1 : Int) ++ [0]).filter (fun c => decide (0 < c))).length ∧
      PACF.MAX_LAG <
        (((List.replicate 1355 (1 : Int) ++ [0]).filter
          (fun c => decide (0 < c))).length - 1) / 2) :=
  ⟨c4_invalid_prices.1 (List.replicate 1355 (1 : Int) ++ [0])
      ⟨0, List.mem_append_right _ (List.mem_singleton.mpr rfl), le_refl 0⟩,
   c4_invalid_prices.2.1 (List.replicate 1355 (1 : Int) ++ [0])⟩

theorem foldlMin_spec (key : Int → Int) :
    ∀ (l : List Int) (b : Int),
      ∃ r, l.foldl (fun best y => if key y < key best then y else best) b = r ∧
        ((r = b ∧ ∀ y ∈ l, key b ≤ key y) ∨
         (∃ l₁ l₂, l = l₁ ++ r :: l₂ ∧ key r < key b ∧
           (∀ y ∈ l₁, key r < key y) ∧ ∀ y ∈ l, key r ≤ key y)) := by
  intro l
  induction l with
  | nil => exact fun b => ⟨b, rfl, Or.inl ⟨rfl, by simp⟩⟩
  | cons y ys ih =>
    intro b
    rw [List.foldl_cons]
    by_cases hy : key y < key b
    · rw [if_pos hy]
      obtain ⟨r, hr, hcase⟩ := ih y
      refine ⟨r, hr, Or.inr ?_⟩
      rcases hcase with ⟨req, hall⟩ | ⟨l₁, l₂, hsplit, hlt, hbefore, hall⟩
      · subst req
        refine ⟨[], ys, by simp, hy, by simp, ?_⟩
        intro z hz
        rcases List.mem_cons.mp hz with h | h
        · exact h ▸ le_refl _
        · exact hall z h
      · refine ⟨y :: l₁, l₂, by rw [hsplit, List.cons_append], hlt.trans hy, ?_, ?_⟩
        · intro z hz
          rcases List.mem_cons.mp hz with h | h
          · exact h ▸ hlt
          · exact hbefore z h
        · intro z hz
          rcases List.mem_cons.mp hz with h | h
          · exact h ▸ hlt.le
          · exact hall z h
    · rw [if_neg hy]
      have hby : key b ≤ key y := not_lt.mp hy
      obtain ⟨r, hr, hcase⟩ := ih b
      refine ⟨r, hr, ?_⟩
      rcases hcase with ⟨req, hall⟩ | ⟨l₁, l₂, hsplit, hlt, hbefore, hall⟩
      · refine Or.inl ⟨req, ?_⟩
        intro z hz
        rcases List.mem_cons.mp hz with h | h
        · exact h ▸ hby
        · exact hall z h
      · refine Or.inr ⟨y :: l₁, l₂, by rw [hsplit, List.cons_append], hlt, ?_, ?_⟩
        · intro z hz
          rcases List.mem_cons.mp hz with h | h
          · exact h ▸ hlt.trans_le hby
          · exact hbefore z h
        · intro z hz
          rcases List.mem_cons.mp hz with h | h
          · exact h ▸ (hlt.trans_le hby).le
          · exact hall z h

/-- C3: for every numeric raw period and non-empty table, the matcher returns
the lowest-index table entry minimizing the absolute difference, together
with that absolute difference; a null (or non-numeric, coerced to null) raw
period gives `(None, None)`. -/
theorem c3_find_closest_cycle :
    (∀ table : List Int, PSD.find_closest_cycle none table = (none, none)) ∧
    (∀ (p : Int) (table : List Int), table ≠ [] →
      ∃ c, PSD.find_closest_cycle (some p) table = (some c, some |p - c|) ∧
        c ∈ table ∧ (∀ x ∈ table, |p - c| ≤ |p - x|) ∧
        ∃ l₁ l₂, table = l₁ ++ c :: l₂ ∧ ∀ x ∈ l₁, |p - c| < |p - x|) := by
  constructor
  · intro table
    rfl
  · intro p table hne
    match table with
    | x :: xs =>
      obtain ⟨r, hr, hcase⟩ := foldlMin_spec (fun z => |z - p|) xs x
      have habs : ∀ z : Int, |z - p| = |p - z| := fun z => abs_sub_comm z p
      have hfc : PSD.find_closest_cycle (some p) (x :: xs) = (some r, some |p - r|) := by
        show (some ((xs.foldl (fun best y =>
            if |y - p| < |best - p| then y else best) x)), some _) = _
        rw [hr]
      rcases hcase with ⟨req, hall⟩ | ⟨l₁, l₂, hsplit, hlt, hbefore, hall⟩
      · subst req
        refine ⟨r, hfc, List.mem_cons_self r xs, ?_, [], xs, rfl, by simp⟩
        intro z hz
        rcases List.mem_cons.mp hz with h | h
        · exact h ▸ le_refl _
        · rw [← habs r, ← habs z]
          exact hall z h
      · refine ⟨r, hfc, List.mem_cons_of_mem x (hsplit ▸ List.mem_append_right l₁ (List.mem_cons_self r l₂)), ?_, x :: l₁, l₂, by rw [hsplit, List.cons_append], ?_⟩
        · intro z hz
          rcases List.mem_cons.mp hz with h | h
          · rw [← habs r, ← habs z, h]
            exact hlt.le
          · rw [← habs r, ← habs z]
            exact hall z h
        · intro z hz
          rcases List.mem_cons.mp hz with h | h
          · rw [← habs r, ← habs z, h]
            exact hlt
          · rw [← habs r, ← habs z]
            exact hbefore z h

/-- Witness for `c3_find_closest_cycle` at the exact midpoint 250 of the
table `[200, 300]`: the lower-index entry 200 wins. -/
theorem c3_find_closest_cycle_witness :
    ∃ c, PSD.find_closest_cycle (some 250) [200, 300] = (some c, some |250 - c|) ∧
      c ∈ [200, 300] ∧ (∀ x ∈ [200, 300], |250 - c| ≤ |250 - x|) ∧
      ∃ l₁ l₂, [200, 300] = l₁ ++ c :: l₂ ∧ ∀ x ∈ l₁, |250 - c| < |250 - x| :=
  c3_find_closest_cycle.2 250 [200, 300] (by decide)

theorem pairLe_fst_le {a b : Int × Int} (h : CAR.pairLe a b) : a.1 ≤ b.1 := by
  rcases h with h | ⟨h, _⟩
  · exact h.le
  · exact h.le

theorem mergeLoop_cons (st en s e : Int) (rest : List (Int × Int)) :
    CAR.mergeLoop st en ((s, e) :: rest) =
      if s ≤ en + 1 then CAR.mergeLoop st (max en e) rest
      else (st, en) :: CAR.mergeLoop s e rest := rfl

theorem mergeLoop_head :
    ∀ (l : List (Int × Int)) (st en : Int), ∃ b tl, CAR.mergeLoop st en l = (st, b) :: tl := by
  intro l
  induction l with
  | nil => exact fun st en => ⟨en, [], rfl⟩
  | cons p rest ih =>
    obtain ⟨s, e⟩ := p
    intro st en
    rw [mergeLoop_cons]
    by_cases h : s ≤ en + 1
    · rw [if_pos h]
      exact ih st (max en e)
    · rw [if_neg h]
      exact ⟨en, CAR.mergeLoop s e rest, rfl⟩

theorem mergeLoop_chain :
    ∀ (l : List (Int × Int)) (st en : Int), l.Sorted CAR.pairLe →
      (∀ p ∈ l, st ≤ p.1) →
      List.Chain' (fun a b : Int × Int => a.2 + 1 < b.1 ∧ a.1 ≤ b.1)
        (CAR.mergeLoop st en l) := by
  intro l
  induction l with
  | nil =>
    intro st en _ _
    exact List.chain'_singleton _
  | cons p rest ih =>
    obtain ⟨s, e⟩ := p
    intro st en hsort hge
    have hrest : rest.Sorted CAR.pairLe := hsort.of_cons
    have hs_le : ∀ q ∈ rest, s ≤ q.1 :=
      fun q hq => pairLe_fst_le ((List.sorted_cons.mp hsort).1 q hq)
    have hst_s : st ≤ s := hge (s, e) (List.mem_cons_self _ _)
    rw [mergeLoop_cons]
    by_cases hcase : s ≤ en + 1
    · rw [if_pos hcase]
      exact ih st (max en e) hrest (fun q hq => le_trans hst_s (hs_le q hq))
    · rw [if_neg hcase]
      rw [List.chain'_cons']
      refine ⟨?_, ih s e hrest hs_le⟩
      intro y hy
      obtain ⟨b, tl, heq⟩ := mergeLoop_head rest s e
      rw [heq] at hy
      simp only [List.head?_cons, Option.mem_def, Option.some.injEq] at hy
      subst hy
      exact ⟨by omega, hst_s⟩

theorem sortIntervals_sorted (l : List (Int × Int)) :
    (CAR.sortIntervals l).Sorted CAR.pairLe :=
  List.sorted_insertionSort CAR.pairLe l

theorem sortIntervals_eq_of_perm {l₁ l₂ : List (Int × Int)} (h : l₁.Perm l₂) :
    CAR.sortIntervals l₁ = CAR.sortIntervals l₂ :=
  List.eq_of_perm_of_sorted
    (((List.perm_insertionSort CAR.pairLe l₁).trans h).trans
      (List.perm_insertionSort CAR.pairLe l₂).symm)
    (sortIntervals_sorted l₁) (sortIntervals_sorted l₂)

/-- C6: for every reference table and tolerance, the merged clipped tolerance
intervals form a list that is disjoint and non-adjacent (each interval ends
at least two days before the next starts) and is sorted by start; and both
the merged list and its union size are invariant under any permutation of the
table entries (the list is sorted before merging). -/
theorem c6_merge_disjoint_sorted_perm :
    (∀ (table : List Int) (t : Int),
      List.Chain' (fun a b : Int × Int => a.2 + 1 < b.1 ∧ a.1 ≤ b.1)
        (CAR.mergedIntervals table t)) ∧
    (∀ (table₁ table₂ : List Int) (t : Int), table₁.Perm table₂ →
      CAR.mergedIntervals table₁ t = CAR.mergedIntervals table₂ t ∧
      CAR.totalCoveredDays table₁ t = CAR.totalCoveredDays table₂ t) := by
  constructor
  · intro table t
    rw [CAR.mergedIntervals]
    have hsorted := sortIntervals_sorted (CAR.tolIntervals table t)
    rcases hM : CAR.sortIntervals (CAR.tolIntervals table t) with _ | ⟨⟨s, e⟩, rest⟩
    · exact List.chain'_nil
    · rw [hM] at hsorted
      show List.Chain' _ (CAR.mergeLoop s e rest)
      exact mergeLoop_chain rest s e hsorted.of_cons
        (fun q hq => pairLe_fst_le ((List.sorted_cons.mp hsorted).1 q hq))
  · intro table₁ table₂ t hperm
    have hsort_eq : CAR.sortIntervals (CAR.tolIntervals table₁ t) =
        CAR.sortIntervals (CAR.tolIntervals table₂ t) :=
      sortIntervals_eq_of_perm (hperm.map _)
    have hm : CAR.mergedIntervals table₁ t = CAR.mergedIntervals table₂ t := by
      rw [CAR.mergedIntervals, CAR.mergedIntervals, hsort_eq]
    exact ⟨hm, by rw [CAR.totalCoveredDays, CAR.totalCoveredDays, hm]⟩

/-- Witness for `c6_merge_disjoint_sorted_perm` at the two orderings of the
concrete table containing 200 and 300. -/
theorem c6_merge_disjoint_sorted_perm_witness :
    CAR.mergedIntervals [300, 200] 2 = CAR.mergedIntervals [200, 300] 2 ∧
    CAR.totalCoveredDays [300, 200] 2 = CAR.totalCoveredDays [200, 300] 2 :=
  c6_merge_disjoint_sorted_perm.2 [300, 200] [200, 300] 2 (List.Perm.swap 200 300 [])

theorem find_dominant_cycles_cons (a : ℚ × ℚ) (as : List (ℚ × ℚ)) (θ : ℚ) :
    PSD.find_dominant_cycles (a :: as) θ =
      (let top_10_cycles := (PSD.sortPeaks (a :: as)).take 10
       let total_power := (top_10_cycles.map Prod.snd).sum
       if total_power = 0 then []
       else
         match top_10_cycles with
         | p0 :: p1 :: _ =>
           if θ * total_power ≤ p0.2 + p1.2 then [pyRound p0.1, pyRound p1.1] else []
         | [p0] => if θ * total_power ≤ p0.2 then [pyRound p0.1] else []
         | [] => []) := rfl

theorem sortPeaks_sorted (l : List (ℚ × ℚ)) :
    (PSD.sortPeaks l).Sorted descBySnd :=
  List.sorted_insertionSort descBySnd l

theorem sortPeaks_perm (l : List (ℚ × ℚ)) : (PSD.sortPeaks l).Perm l :=
  List.perm_insertionSort descBySnd l

/-- C1 counterexample: five detected peaks of equal power 1 with the default
threshold 0.6 of the non-equity classes give a non-empty peak set, yet
`find_dominant_cycles` returns no cycle at all — not the single strongest
peak: the top-two mass 2 is below 0.6 × 5 = 3, and the code then selects
nothing (compute_match_psd.py lines 184-187 have no else-branch). -/
theorem c1_threshold_mass_counterexample :
    ([((200 : ℚ), (1 : ℚ)), (300, 1), (400, 1), (500, 1), (600, 1)] ≠
        ([] : List (ℚ × ℚ))) ∧
    PSD.find_dominant_cycles
      [((200 : ℚ), (1 : ℚ)), (300, 1), (400, 1), (500, 1), (600, 1)] (3 / 5) = [] := by
  refine ⟨by simp, ?_⟩
  norm_num [PSD.find_dominant_cycles, PSD.sortPeaks, descBySnd]

/-- C1 (amended): the threshold-mass variant does not always return the
strongest peak.  With at least two detected peaks it returns the top two
peaks' rounded periods together when their summed power reaches
`threshold × total power of the top 10` (and that total is nonzero), and
otherwise returns no cycle at all; with exactly one peak, that peak is
returned iff its power is nonzero and meets the threshold fraction of the
total (which is its own power). -/
theorem c1_threshold_mass_selection :
    (∀ (peaks : List (ℚ × ℚ)) (θ : ℚ), 2 ≤ peaks.length →
      ∃ p0 p1 rest, PSD.sortPeaks peaks = p0 :: p1 :: rest ∧
        (∀ q ∈ peaks, q.2 ≤ p0.2) ∧
        (∀ q ∈ rest, q.2 ≤ p1.2) ∧
        PSD.find_dominant_cycles peaks θ =
          (if (((PSD.sortPeaks peaks).take 10).map Prod.snd).sum ≠ 0 ∧
              θ * (((PSD.sortPeaks peaks).take 10).map Prod.snd).sum ≤ p0.2 + p1.2 then
            [pyRound p0.1, pyRound p1.1]
          else [])) ∧
    (∀ (p : ℚ × ℚ) (θ : ℚ),
      PSD.find_dominant_cycles [p] θ =
        if p.2 ≠ 0 ∧ θ * p.2 ≤ p.2 then [pyRound p.1] else []) := by
  constructor
  · intro peaks θ h2
    have hlen : 2 ≤ (PSD.sortPeaks peaks).length := by
      rw [(sortPeaks_perm peaks).length_eq]
      exact h2
    rcases hs : PSD.sortPeaks peaks with _ | ⟨p0, tl⟩
    · rw [hs] at hlen
      simp at hlen
    rcases htl : tl with _ | ⟨p1, rest⟩
    · rw [hs, htl] at hlen
      simp at hlen
    subst htl
    have hsorted := sortPeaks_sorted peaks
    rw [hs] at hsorted
    refine ⟨p0, p1, rest, rfl, ?_, ?_, ?_⟩
    · intro q hq
      have hq' : q ∈ PSD.sortPeaks peaks := (sortPeaks_perm peaks).symm.subset hq
      rw [hs] at hq'
      rcases List.mem_cons.mp hq' with h | h
      · exact le_of_eq (congrArg Prod.snd h)
      · exact (List.sorted_cons.mp hsorted).1 q h
    · intro q hq
      exact (List.sorted_cons.mp hsorted.of_cons).1 q hq
    · rcases hp : peaks with _ | ⟨a, as⟩
      · rw [hp] at h2
        simp at h2
      rw [← hp]
      have hne : peaks = a :: as := hp
      rw [hp, find_dominant_cycles_cons, ← hp, hs]
      have htake : (p0 :: p1 :: rest).take 10 = p0 :: p1 :: rest.take 8 := rfl
      rw [htake]
      simp only []
      by_cases h0 : ((p0 :: p1 :: rest.take 8).map Prod.snd).sum = 0
      · rw [if_pos h0, if_neg]
        intro hc
        exact hc.1 h0
      · rw [if_neg h0]
        by_cases hθ : θ * ((p0 :: p1 :: rest.take 8).map Prod.snd).sum ≤ p0.2 + p1.2
        all_goals simp only [List.map_cons, List.sum_cons, List.map_take] at h0 hθ ⊢
        · simp [h0, hθ]
        · simp [h0, hθ]
  · intro p θ
    have hone : PSD.sortPeaks [p] = [p] := rfl
    rw [show PSD.find_dominant_cycles [p] θ =
        (if ((((PSD.sortPeaks [p]).take 10).map Prod.snd).sum = 0) then []
         else if θ * (((PSD.sortPeaks [p]).take 10).map Prod.snd).sum ≤ p.2 then
           [pyRound p.1] else []) from rfl, hone]
    have hsum : (([p].take 10).map Prod.snd).sum = p.2 := by simp
    rw [hsum]
    by_cases h0 : p.2 = 0
    · simp [h0]
    · rw [if_neg h0]
      by_cases hθ : θ * p.2 ≤ p.2
      · simp [h0, hθ]
      · simp [h0, hθ]

/-- Witness for `c1_threshold_mass_selection` at a concrete two-peak input
and a concrete single-peak input. -/
theorem c1_threshold_mass_selection_witness :
    (∃ p0 p1 rest, PSD.sortPeaks [((200 : ℚ), (3 : ℚ)), (300, 2)] = p0 :: p1 :: rest ∧
      (∀ q ∈ [((200 : ℚ), (3 : ℚ)), (300, 2)], q.2 ≤ p0.2) ∧
      (∀ q ∈ rest, q.2 ≤ p1.2) ∧
      PSD.find_dominant_cycles [((200 : ℚ), (3 : ℚ)), (300, 2)] (1 / 2) =
        (if (((PSD.sortPeaks [((200 : ℚ), (3 : ℚ)), (300, 2)]).take 10).map Prod.snd).sum ≠ 0 ∧
            (1 / 2 : ℚ) *
              (((PSD.sortPeaks [((200 : ℚ), (3 : ℚ)), (300, 2)]).take 10).map Prod.snd).sum ≤
              p0.2 + p1.2 then
          [pyRound p0.1, pyRound p1.1]
        else [])) ∧
    PSD.find_dominant_cycles [((200 : ℚ), (3 : ℚ))] (1 / 2) =
      (if ((3 : ℚ) ≠ 0 ∧ (1 / 2 : ℚ) * 3 ≤ 3) then [pyRound (200 : ℚ)] else []) :=
  ⟨c1_threshold_mass_selection.1 [((200 : ℚ), (3 : ℚ)), (300, 2)] (1 / 2) (by simp),
   c1_threshold_mass_selection.2 ((200 : ℚ), (3 : ℚ)) (1 / 2)⟩

theorem sortSig_sorted (l : List (Nat × ℚ)) :
    (PACF.sortSig l).Sorted descBySnd :=
  List.sorted_insertionSort descBySnd l

theorem sortSig_perm (l : List (Nat × ℚ)) : (PACF.sortSig l).Perm l :=
  List.perm_insertionSort descBySnd l

theorem pickSeparated_cons (ex : List Nat) (lag : Nat) (s : ℚ) (rest : List (Nat × ℚ)) :
    PACF.pickSeparated ex ((lag, s) :: rest) =
      if ex.all (fun e => decide (PACF.MIN_CYCLE_DISTANCE ≤ PACF.lagDist lag e)) then
        if 2 ≤ (ex ++ [lag]).length then ex ++ [lag]
        else PACF.pickSeparated (ex ++ [lag]) rest
      else PACF.pickSeparated ex rest := rfl

theorem pickSeparated_single_spec (l0 : Nat) (rest : List (Nat × ℚ)) :
    (PACF.pickSeparated [l0] rest = [l0] ∧
      ∀ q ∈ rest, PACF.lagDist q.1 l0 < PACF.MIN_CYCLE_DISTANCE) ∨
    (∃ r₁ p r₂, rest = r₁ ++ p :: r₂ ∧
      PACF.pickSeparated [l0] rest = [l0, p.1] ∧
      PACF.MIN_CYCLE_DISTANCE ≤ PACF.lagDist p.1 l0 ∧
      ∀ x ∈ r₁, PACF.lagDist x.1 l0 < PACF.MIN_CYCLE_DISTANCE) := by
  induction rest with
  | nil => exact Or.inl ⟨rfl, by simp⟩
  | cons q qs ih =>
    obtain ⟨lag, s⟩ := q
    by_cases hq : PACF.MIN_CYCLE_DISTANCE ≤ PACF.lagDist lag l0
    · right
      have hcond : ([l0].all
          (fun e => decide (PACF.MIN_CYCLE_DISTANCE ≤ PACF.lagDist lag e))) = true := by
        simp [hq]
      refine ⟨[], (lag, s), qs, rfl, ?_, hq, by simp⟩
      rw [pickSeparated_cons, if_pos hcond, if_pos (by simp)]
      rfl
    · have hcond : ¬(([l0].all
          (fun e => decide (PACF.MIN_CYCLE_DISTANCE ≤ PACF.lagDist lag e))) = true) := by
        simp [hq]
      rcases ih with ⟨heq, hall⟩ | ⟨r₁, p, r₂, hsplit, heq, hge, hbef⟩
      · left
        refine ⟨by rw [pickSeparated_cons, if_neg hcond, heq], ?_⟩
        intro x hx
        rcases List.mem_cons.mp hx with h | h
        · rw [h]
          exact not_le.mp hq
        · exact hall x h
      · right
        refine ⟨(lag, s) :: r₁, p, r₂, by rw [hsplit, List.cons_append],
          by rw [pickSeparated_cons, if_neg hcond, heq], hge, ?_⟩
        intro x hx
        rcases List.mem_cons.mp hx with h | h
        · rw [h]
          exact not_le.mp hq
        · exact hbef x h

theorem topLags_cons (s0 : Nat × ℚ) (rest : List (Nat × ℚ)) (sig : List (Nat × ℚ))
    (hs : PACF.sortSig sig = s0 :: rest) :
    PACF.topLags sig =
      (if (PACF.pickSeparated [s0.1] rest).length = 1 then
        match rest with
        | [] => PACF.pickSeparated [s0.1] rest
        | s1 :: _ => PACF.pickSeparated [s0.1] rest ++ [s1.1]
      else PACF.pickSeparated [s0.1] rest) := by
  unfold PACF.topLags
  simp only [hs]
  cases rest <;> rfl

theorem sorted_append_middle {r₁ : List (Nat × ℚ)} {p : Nat × ℚ} {r₂ : List (Nat × ℚ)}
    (h : (r₁ ++ p :: r₂).Sorted descBySnd) : ∀ x ∈ r₂, x.2 ≤ p.2 := by
  have hp : (p :: r₂).Pairwise descBySnd := (List.pairwise_append.mp h).2.1
  exact fun x hx => (List.sorted_cons.mp hp).1 x hx

theorem topLags_spec (sig : List (Nat × ℚ)) (hne : sig ≠ []) :
    (∃ l0 m0, (PACF.topLags sig).head? = some l0 ∧ (l0, m0) ∈ sig ∧
      ∀ q ∈ sig, q.2 ≤ m0) ∧
    (∀ l0 l1, PACF.topLags sig = [l0, l1] →
      PACF.MIN_CYCLE_DISTANCE ≤ PACF.lagDist l1 l0 →
      ∃ m1, (l1, m1) ∈ sig ∧
        ∀ q ∈ sig, PACF.MIN_CYCLE_DISTANCE ≤ PACF.lagDist q.1 l0 → q.2 ≤ m1) ∧
    (∀ l0 l1, PACF.topLags sig = [l0, l1] →
      PACF.lagDist l1 l0 < PACF.MIN_CYCLE_DISTANCE →
      (∀ q ∈ sig, q.1 ≠ l0 → PACF.lagDist q.1 l0 < PACF.MIN_CYCLE_DISTANCE) ∧
      ∃ m1, (l1, m1) ∈ sig ∧ ∀ q ∈ sig, q.1 ≠ l0 → q.2 ≤ m1) ∧
    (2 ≤ sig.length → ∃ l0 l1, PACF.topLags sig = [l0, l1]) := by
  rcases hs : PACF.sortSig sig with _ | ⟨s0, rest⟩
  · exfalso
    have hp := sortSig_perm sig
    rw [hs] at hp
    exact hne hp.nil_eq.symm
  · have hsorted := sortSig_sorted sig
    rw [hs] at hsorted
    have hperm : (s0 :: rest).Perm sig := hs ▸ sortSig_perm sig
    have hmem : ∀ q, q ∈ sig → q ∈ s0 :: rest := fun q hq => hperm.mem_iff.mpr hq
    have hmem' : ∀ q, q ∈ s0 :: rest → q ∈ sig := fun q hq => hperm.subset hq
    have hs0_mem : (s0.1, s0.2) ∈ sig := by
      have he : (s0.1, s0.2) = s0 := rfl
      rw [he]
      exact hmem' s0 (List.mem_cons_self _ _)
    have hmax : ∀ q ∈ sig, q.2 ≤ s0.2 := by
      intro q hq
      rcases List.mem_cons.mp (hmem q hq) with h | h
      · exact le_of_eq (congrArg Prod.snd h)
      · exact (List.sorted_cons.mp hsorted).1 q h
    have hlen_eq : sig.length = rest.length + 1 := by
      rw [← hperm.length_eq]
      rfl
    have htl := topLags_cons s0 rest sig hs
    rcases pickSeparated_single_spec s0.1 rest with
      ⟨hpick, hfail⟩ | ⟨r₁, p, r₂, hsplit, hpick, hge, hbef⟩
    · rw [hpick] at htl
      rcases rest with _ | ⟨s1, rs⟩
      · simp at htl
        refine ⟨⟨s0.1, s0.2, by rw [htl]; rfl, hs0_mem, hmax⟩, ?_, ?_, ?_⟩
        · intro l0 l1 he _
          rw [htl] at he
          exact absurd he (by simp)
        · intro l0 l1 he _
          rw [htl] at he
          exact absurd he (by simp)
        · intro h2
          rw [hlen_eq] at h2
          simp at h2
      · simp at htl
        have hsorted_rest : (s1 :: rs).Sorted descBySnd := hsorted.of_cons
        refine ⟨⟨s0.1, s0.2, by rw [htl]; rfl, hs0_mem, hmax⟩, ?_, ?_, ?_⟩
        · intro l0 l1 he hd
          rw [htl] at he
          simp only [List.cons.injEq, and_true] at he
          obtain ⟨h1, h2⟩ := he
          subst h1
          subst h2
          exact absurd hd (not_le.mpr (hfail s1 (List.mem_cons_self _ _)))
        · intro l0 l1 he _
          rw [htl] at he
          simp only [List.cons.injEq, and_true] at he
          obtain ⟨h1, h2⟩ := he
          subst h1
          subst h2
          constructor
          · intro q hq hql
            rcases List.mem_cons.mp (hmem q hq) with h | h
            · exact absurd (congrArg Prod.fst h) hql
            · exact hfail q h
          · refine ⟨s1.2, ?_, ?_⟩
            · have he1 : (s1.1, s1.2) = s1 := rfl
              rw [he1]
              exact hmem' s1 (List.mem_cons_of_mem _ (List.mem_cons_self _ _))
            · intro q hq hql
              rcases List.mem_cons.mp (hmem q hq) with h | h
              · exact absurd (congrArg Prod.fst h) hql
              · rcases List.mem_cons.mp h with h' | h'
                · exact le_of_eq (congrArg Prod.snd h')
                · exact (List.sorted_cons.mp hsorted_rest).1 q h'
        · intro _
          exact ⟨s0.1, s1.1, htl⟩
    · rw [hpick] at htl
      simp only [List.length_cons, List.length_singleton] at htl
      rw [if_neg (by omega)] at htl
      have hp_mem : p ∈ s0 :: rest :=
        List.mem_cons_of_mem _ (hsplit ▸ List.mem_append_right r₁ (List.mem_cons_self _ _))
      have hrest_sorted : rest.Sorted descBySnd := hsorted.of_cons
      have hp_pair : (p.1, p.2) = p := rfl
      refine ⟨⟨s0.1, s0.2, by rw [htl]; rfl, hs0_mem, hmax⟩, ?_, ?_,
        fun _ => ⟨s0.1, p.1, htl⟩⟩
      · intro l0 l1 he _
        rw [htl] at he
        simp only [List.cons.injEq, and_true] at he
        obtain ⟨h1, h2⟩ := he
        subst h1
        subst h2
        refine ⟨p.2, by rw [hp_pair]; exact hmem' p hp_mem, ?_⟩
        intro q hq hql
        rcases List.mem_cons.mp (hmem q hq) with h | h
        · exfalso
          rw [h] at hql
          have hz : PACF.lagDist s0.1 s0.1 = 0 := by simp [PACF.lagDist]
          rw [hz] at hql
          exact absurd hql (by simp [PACF.MIN_CYCLE_DISTANCE])
        · rw [hsplit] at h
          rcases List.mem_append.mp h with h' | h'
          · exact absurd hql (not_le.mpr (hbef q h'))
          · rcases List.mem_cons.mp h' with h'' | h''
            · exact le_of_eq (congrArg Prod.snd h'')
            · exact sorted_append_middle (hsplit ▸ hrest_sorted) q h''
      · intro l0 l1 he hd
        rw [htl] at he
        simp only [List.cons.injEq, and_true] at he
        obtain ⟨h1, h2⟩ := he
        subst h1
        subst h2
        exact absurd hge (not_le.mpr hd)

/-- C8: whenever the PACF pipeline finds at least one significant lag, the
first returned cycle is a significant lag of maximal magnitude; a second
returned cycle at distance at least 71 days from the first is the strongest
significant lag among those separated from the first; a second returned
cycle closer than 71 days can only come from the fallback, in which case no
separated significant lag exists and the second cycle has maximal magnitude
among the significant lags other than the first; and whenever at least two
significant lags exist, a second cycle is returned. -/
theorem c8_pacf_top_two (pv : List (Option ℚ)) (ci : ℚ)
    (hne : PACF.significantLags pv ci ≠ []) :
    (∃ l0 m0, (PACF.topLags (PACF.significantLags pv ci)).head? = some l0 ∧
      (l0, m0) ∈ PACF.significantLags pv ci ∧
      ∀ q ∈ PACF.significantLags pv ci, q.2 ≤ m0) ∧
    (∀ l0 l1, PACF.topLags (PACF.significantLags pv ci) = [l0, l1] →
      PACF.MIN_CYCLE_DISTANCE ≤ PACF.lagDist l1 l0 →
      ∃ m1, (l1, m1) ∈ PACF.significantLags pv ci ∧
        ∀ q ∈ PACF.significantLags pv ci,
          PACF.MIN_CYCLE_DISTANCE ≤ PACF.lagDist q.1 l0 → q.2 ≤ m1) ∧
    (∀ l0 l1, PACF.topLags (PACF.significantLags pv ci) = [l0, l1] →
      PACF.lagDist l1 l0 < PACF.MIN_CYCLE_DISTANCE →
      (∀ q ∈ PACF.significantLags pv ci, q.1 ≠ l0 →
        PACF.lagDist q.1 l0 < PACF.MIN_CYCLE_DISTANCE) ∧
      ∃ m1, (l1, m1) ∈ PACF.significantLags pv ci ∧
        ∀ q ∈ PACF.significantLags pv ci, q.1 ≠ l0 → q.2 ≤ m1) ∧
    (2 ≤ (PACF.significantLags pv ci).length →
      ∃ l0 l1, PACF.topLags (PACF.significantLags pv ci) = [l0, l1]) :=
  topLags_spec (PACF.significantLags pv ci) hne

theorem significantLags_allone_eval :
    PACF.significantLags (List.replicate 180 (some (1 : ℚ))) (1 / 2) = [(179, 1)] := by
  unfold PACF.significantLags
  rw [show List.range' PACF.MIN_LAG
      (min (PACF.MAX_LAG + 1) (List.replicate 180 (some (1 : ℚ))).length - PACF.MIN_LAG)
      = [179] by rw [List.length_replicate]; rfl]
  have hget : (List.replicate 180 (some (1 : ℚ))).getD 179 none = some 1 := by
    rw [List.getD_eq_getElem?_getD, List.getElem?_replicate_of_lt (by norm_num)]
    rfl
  simp only [List.filterMap_cons, List.filterMap_nil, hget, abs_one]
  rw [if_pos (by norm_num : (1 / 2 : ℚ) < 1)]

/-- Witness for `c8_pacf_top_two` at a series whose PACF values are all 1:
the single significant lag in range is 179. -/
theorem c8_pacf_top_two_witness :
    (∃ l0 m0,
      (PACF.topLags (PACF.significantLags (List.replicate 180 (some (1 : ℚ))) (1 / 2))).head? =
        some l0 ∧
      (l0, m0) ∈ PACF.significantLags (List.replicate 180 (some (1 : ℚ))) (1 / 2) ∧
      ∀ q ∈ PACF.significantLags (List.replicate 180 (some (1 : ℚ))) (1 / 2), q.2 ≤ m0) ∧
    (∀ l0 l1,
      PACF.topLags (PACF.significantLags (List.replicate 180 (some (1 : ℚ))) (1 / 2)) =
        [l0, l1] →
      PACF.MIN_CYCLE_DISTANCE ≤ PACF.lagDist l1 l0 →
      ∃ m1, (l1, m1) ∈ PACF.significantLags (List.replicate 180 (some (1 : ℚ))) (1 / 2) ∧
        ∀ q ∈ PACF.significantLags (List.replicate 180 (some (1 : ℚ))) (1 / 2),
          PACF.MIN_CYCLE_DISTANCE ≤ PACF.lagDist q.1 l0 → q.2 ≤ m1) ∧
    (∀ l0 l1,
      PACF.topLags (PACF.significantLags (List.replicate 180 (some (1 : ℚ))) (1 / 2)) =
        [l0, l1] →
      PACF.lagDist l1 l0 < PACF.MIN_CYCLE_DISTANCE →
      (∀ q ∈ PACF.significantLags (List.replicate 180 (some (1 : ℚ))) (1 / 2), q.1 ≠ l0 →
        PACF.lagDist q.1 l0 < PACF.MIN_CYCLE_DISTANCE) ∧
      ∃ m1, (l1, m1) ∈ PACF.significantLags (List.replicate 180 (some (1 : ℚ))) (1 / 2) ∧
        ∀ q ∈ PACF.significantLags (List.replicate 180 (some (1 : ℚ))) (1 / 2),
          q.1 ≠ l0 → q.2 ≤ m1) ∧
    (2 ≤ (PACF.significantLags (List.replicate 180 (some (1 : ℚ))) (1 / 2)).length →
      ∃ l0 l1,
        PACF.topLags (PACF.significantLags (List.replicate 180 (some (1 : ℚ))) (1 / 2)) =
          [l0, l1]) :=
  c8_pacf_top_two (List.replicate 180 (some (1 : ℚ))) (1 / 2)
    (by rw [significantLags_allone_eval]; simp)

end UMC
